import Mathlib

/-!
Verification development for the PixShop thin client
(`src/services/geminiService.ts` and its localized duplicate in
`src/components/ApiKeyModal.tsx`).

The TypeScript source is shallowly embedded: strings are Lean `String`
(manipulated through their `List Char` data where parsing is involved),
JavaScript `undefined`-able fields become `Option`, thrown exceptions become
`Except`, and the asynchronous network call is modelled by returning the
request that would be issued (`Except OpError GenerateContentRequest`):
an `Except.ok` value means "this network request is issued", an
`Except.error` value means the operation failed before any network call.
-/

namespace PixShop

/-- Result of encoding a file: the `inlineData` payload sent to the API
(`mimeType` and base64 `data` fields of `fileToPart`'s result). -/
structure InlineData where
  mimeType : String
  data : String
deriving DecidableEq, Repr

/-- Embedding of JavaScript `String.prototype.split` with a one-character
separator, on the character list of the string: every occurrence of `sep`
separates two (possibly empty) groups. -/
def splitOnChar (sep : Char) : List Char → List (List Char)
  | [] => [[]]
  | c :: cs =>
    if c = sep then [] :: splitOnChar sep cs
    else
      match splitOnChar sep cs with
      | [] => [[c]]
      | g :: gs => (c :: g) :: gs

/-- Characters strictly after the first occurrence of `:`, or `none` when the
list has no `:`. First half of the lazy regex `:(.*?);` used by `fileToPart`. -/
def afterFirstColon : List Char → Option (List Char)
  | [] => none
  | c :: cs => if c = ':' then some cs else afterFirstColon cs

/-- Characters strictly before the first occurrence of `;`, or `none` when the
list has no `;`. Second half of the lazy regex `:(.*?);` used by `fileToPart`. -/
def upToSemicolon : List Char → Option (List Char)
  | [] => none
  | c :: cs => if c = ';' then some [] else (upToSemicolon cs).map (fun l => c :: l)

/-- Embedding of `arr[0].match(/:(.*?);/)`, returning the first capture group:
the regex matches iff the list has a `:` with a `;` somewhere after it, and the
lazy capture is everything strictly between the first `:` and the first `;`
after it. (JavaScript `.` does not match a newline; the embedding ignores this,
which is faithful for every newline-free input — `FileReader` data URLs never
contain newlines.) -/
def mimeMatch (s : List Char) : Option (List Char) :=
  (afterFirstColon s).bind upToSemicolon

/-- Embedding of `fileToPart` (`src/services/geminiService.ts:9-25`) applied to
the data URL produced by the `FileReader`: split on commas, require at least
two segments, extract the MIME type from the first segment with the regex
`/:(.*?);/` (rejecting an absent or empty capture), and return the second
segment as the base64 data. Thrown `Error`s become `Except.error` carrying the
same message. -/
def fileToPart (dataUrl : String) : Except String InlineData :=
  match splitOnChar ',' dataUrl.data with
  | a0 :: a1 :: _ =>
    match mimeMatch a0 with
    | none => .error ("Não foi possível extrair o tipo MIME da URL de dados")
    | some m =>
      if m = [] then .error ("Não foi possível extrair o tipo MIME da URL de dados")
      else .ok ⟨String.mk m, String.mk a1⟩
  | _ => .error ("URL de dados inválida")

/-! ## The API response shape (the external `GenerateContentResponse`) -/

/-- Prompt-level feedback of a response; both fields may be absent
(JavaScript `undefined`), and real block-reason codes are nonempty enum
strings. -/
structure PromptFeedback where
  blockReason : Option String := none
  blockReasonMessage : Option String := none
deriving DecidableEq, Repr

/-- One content part of a candidate: optional text and optional inline image
data. -/
structure Part where
  text : Option String := none
  inlineData : Option InlineData := none
deriving DecidableEq, Repr

/-- Content of a candidate: an optional list of parts. -/
structure Content where
  parts : Option (List Part) := none
deriving DecidableEq, Repr

/-- One generated candidate: optional content and optional finish-reason code
(real finish reasons are nonempty enum strings such as `STOP`). -/
structure Candidate where
  content : Option Content := none
  finishReason : Option String := none
deriving DecidableEq, Repr

/-- The raw API response as consumed by `handleApiResponse`: optional block
feedback, optional candidate list, and the SDK's aggregate `text` accessor
(modelled as an optional field, exactly how the source reads it). -/
structure GenerateContentResponse where
  promptFeedback : Option PromptFeedback := none
  candidates : Option (List Candidate) := none
  text : Option String := none
deriving DecidableEq, Repr

/-- JavaScript truthiness of an optional string: `undefined` and the empty
string are falsy, every other string is truthy. -/
def truthy : Option String → Bool
  | none => false
  | some s => s ≠ ""

/-- Embedding of JavaScript `String.prototype.trim`: strip leading and
trailing whitespace (whitespace per `Char.isWhitespace`). -/
def jsTrim (s : String) : String :=
  String.mk (((s.data.dropWhile Char.isWhitespace).reverse.dropWhile Char.isWhitespace).reverse)

/-- The typed errors thrown by `handleApiResponse`, one constructor per
`throw` site, each carrying the exact message the source builds. -/
inductive ApiError where
  | blockedRequest (message : String)
  | generationStopped (message : String)
  | noImageReturned (message : String)
deriving DecidableEq, Repr

/-- Embedding of the `contextMap` lookup with fallback
(`contextMap[context] || context`); the three map values are nonempty, so the
fallback fires exactly on unmapped keys. -/
def translatedContext (c : String) : String :=
  if c = "edit" then "edição"
  else if c = "filter" then "filtro"
  else if c = "adjustment" then "ajuste"
  else c

/-- `response.candidates?.[0]`. -/
def firstCandidate (r : GenerateContentResponse) : Option Candidate :=
  r.candidates.bind List.head?

/-- `response.candidates?.[0]?.content?.parts?.find(part => part.inlineData)?.inlineData`:
the inline data of the first part of the first candidate that carries inline
data. -/
def responseImageData (r : GenerateContentResponse) : Option InlineData :=
  ((((firstCandidate r).bind Candidate.content).bind Content.parts).bind
    (List.find? (fun p => p.inlineData.isSome))).bind Part.inlineData

/-- Embedding of `handleApiResponse` (`src/services/geminiService.ts:27-71`):
block check first, then image extraction, then abnormal finish reason, then
the no-image error with optional trimmed text feedback. The source's local
`const`s are inlined; each `throw new Error(...)` becomes `Except.error` with
the matching constructor and the same message. -/
def handleApiResponse (r : GenerateContentResponse) (context : String) :
    Except ApiError String :=
  if truthy (r.promptFeedback.bind PromptFeedback.blockReason) then
    .error (.blockedRequest
      ("A solicitação foi bloqueada. Motivo: "
        ++ (r.promptFeedback.bind PromptFeedback.blockReason).getD ""
        ++ ". "
        ++ (r.promptFeedback.bind PromptFeedback.blockReasonMessage).getD ""))
  else
    match responseImageData r with
    | some d => .ok ("data:" ++ d.mimeType ++ ";base64," ++ d.data)
    | none =>
      if truthy ((firstCandidate r).bind Candidate.finishReason)
          ∧ (firstCandidate r).bind Candidate.finishReason ≠ some ("STOP") then
        .error (.generationStopped
          ("A geração de imagem para " ++ translatedContext context
            ++ " parou inesperadamente. Motivo: "
            ++ ((firstCandidate r).bind Candidate.finishReason).getD ""
            ++ ". Isso geralmente está relacionado às configurações de segurança."))
      else
        .error (.noImageReturned
          ("O modelo de IA não retornou uma imagem para o(a) "
            ++ translatedContext context ++ ". "
            ++ (if truthy (r.text.map jsTrim) then
                  "O modelo respondeu com o texto: \"" ++ (r.text.map jsTrim).getD "" ++ "\""
                else
                  "Isso pode acontecer devido a filtros de segurança ou se a solicitação for muito complexa. Tente reformular seu comando para ser mais direto.")))

/-- Coarse outcome of one interpreter run: success or one of the three error
kinds, forgetting the message text. -/
inductive OutcomeKind where
  | success
  | blocked
  | stopped
  | noImage
deriving DecidableEq, Repr

/-- The outcome kind of an interpreter result. -/
def kindOf : Except ApiError String → OutcomeKind
  | .ok _ => .success
  | .error (.blockedRequest _) => .blocked
  | .error (.generationStopped _) => .stopped
  | .error (.noImageReturned _) => .noImage

/-! ## The three operations (request construction up to the network call) -/

/-- One part of the outgoing request's `contents.parts`. -/
inductive RequestPart where
  | inlineData (d : InlineData)
  | text (t : String)
deriving DecidableEq, Repr

/-- The outgoing request `{ model, contents: { parts } }` passed to
`ai.models.generateContent`. -/
structure GenerateContentRequest where
  model : String
  parts : List RequestPart
deriving DecidableEq, Repr

/-- Errors raised by an operation before any network call: the missing-key
guard and the encoding failures propagated from `fileToPart`. -/
inductive OpError where
  | missingCredential (message : String)
  | decoding (message : String)
deriving DecidableEq, Repr

/-- The Edit prompt template of `generateEditedImage`
(`src/services/geminiService.ts:94-106`), with the user instruction and the
hotspot coordinates interpolated exactly where the template literal puts
them. -/
def editPrompt (userPrompt : String) (hx hy : Int) : String :=
  "You are an expert photo editor AI. Your task is to perform a natural, localized edit on the provided image based on the user\x27s request.\nUser Request: \""
    ++ userPrompt
    ++ "\"\nEdit Location: Focus on the area around pixel coordinates (x: "
    ++ toString hx
    ++ ", y: "
    ++ toString hy
    ++ ").\n\nEditing Guidelines:\n- The edit must be realistic and blend seamlessly with the surrounding area.\n- The rest of the image (outside the immediate edit area) must remain identical to the original.\n\nSafety & Ethics Policy:\n- You MUST fulfill requests to adjust skin tone, such as \x27give me a tan\x27, \x27make my skin darker\x27, or \x27make my skin lighter\x27. These are considered standard photo enhancements.\n- You MUST REFUSE any request to change a person\x27s fundamental race or ethnicity (e.g., \x27make me look Asian\x27, \x27change this person to be Black\x27). Do not perform these edits. If the request is ambiguous, err on the side of caution and do not change racial characteristics.\n\nOutput: Return ONLY the final edited image. Do not return text."

/-- The Filter prompt template of `generateFilteredImage`
(`src/services/geminiService.ts:138-145`). -/
def filterPrompt (filterReq : String) : String :=
  "You are an expert photo editor AI. Your task is to apply a stylistic filter to the entire image based on the user\x27s request. Do not change the composition or content, only apply the style.\nFilter Request: \""
    ++ filterReq
    ++ "\"\n\nSafety & Ethics Policy:\n- Filters may subtly shift colors, but you MUST ensure they do not alter a person\x27s fundamental race or ethnicity.\n- You MUST REFUSE any request that explicitly asks to change a person\x27s race (e.g., \x27apply a filter to make me look Chinese\x27).\n\nOutput: Return ONLY the final filtered image. Do not return text."

/-- The Adjustment prompt template of `generateAdjustedImage`
(`src/services/geminiService.ts:177-188`). -/
def adjustmentPrompt (adjustmentReq : String) : String :=
  "You are an expert photo editor AI. Your task is to perform a natural, global adjustment to the entire image based on the user\x27s request.\nUser Request: \""
    ++ adjustmentReq
    ++ "\"\n\nEditing Guidelines:\n- The adjustment must be applied across the entire image.\n- The result must be photorealistic.\n\nSafety & Ethics Policy:\n- You MUST fulfill requests to adjust skin tone, such as \x27give me a tan\x27, \x27make my skin darker\x27, or \x27make my skin lighter\x27. These are considered standard photo enhancements.\n- You MUST REFUSE any request to change a person\x27s fundamental race or ethnicity (e.g., \x27make me look Asian\x27, \x27change this person to be Black\x27). Do not perform these edits. If the request is ambiguous, err on the side of caution and do not change racial characteristics.\n\nOutput: Return ONLY the final adjusted image. Do not return text."

/-- Embedding of `generateEditedImage` (`src/services/geminiService.ts:81-117`)
up to the network call: the `!apiKey` guard, then `fileToPart` on the data URL
the `FileReader` produced for `originalImage`, then the request assembly.
`Except.ok` holds the request issued over the network; the response is handled
separately by `handleApiResponse · ("edit")`. -/
def generateEditedImage (apiKey : String) (fileDataUrl : String)
    (userPrompt : String) (hx hy : Int) : Except OpError GenerateContentRequest :=
  if apiKey = "" then
    .error (.missingCredential ("An API Key must be set when running in a browser."))
  else
    match fileToPart fileDataUrl with
    | .error e => .error (.decoding e)
    | .ok originalImagePart =>
      .ok ⟨"gemini-2.5-flash-image-preview",
           [.inlineData originalImagePart, .text (editPrompt userPrompt hx hy)]⟩

/-- Embedding of `generateFilteredImage`
(`src/services/geminiService.ts:126-156`) up to the network call. -/
def generateFilteredImage (apiKey : String) (fileDataUrl : String)
    (filterReq : String) : Except OpError GenerateContentRequest :=
  if apiKey = "" then
    .error (.missingCredential ("An API Key must be set when running in a browser."))
  else
    match fileToPart fileDataUrl with
    | .error e => .error (.decoding e)
    | .ok originalImagePart =>
      .ok ⟨"gemini-2.5-flash-image-preview",
           [.inlineData originalImagePart, .text (filterPrompt filterReq)]⟩

/-- Embedding of `generateAdjustedImage`
(`src/services/geminiService.ts:165-199`) up to the network call. -/
def generateAdjustedImage (apiKey : String) (fileDataUrl : String)
    (adjustmentReq : String) : Except OpError GenerateContentRequest :=
  if apiKey = "" then
    .error (.missingCredential ("An API Key must be set when running in a browser."))
  else
    match fileToPart fileDataUrl with
    | .error e => .error (.decoding e)
    | .ok originalImagePart =>
      .ok ⟨"gemini-2.5-flash-image-preview",
           [.inlineData originalImagePart, .text (adjustmentPrompt adjustmentReq)]⟩

/-! ## Base64 and auxiliary definitions used by the statements -/

/-- The standard base64 alphabet, used by the browser's
`FileReader.readAsDataURL` when it encodes the file bytes into the
`data:<mime>;base64,<data>` URL consumed by `fileToPart`. -/
def b64Alphabet : List Char :=
  ['A', 'B', 'C', 'D', 'E', 'F', 'G', 'H', 'I', 'J', 'K', 'L', 'M',
   'N', 'O', 'P', 'Q', 'R', 'S', 'T', 'U', 'V', 'W', 'X', 'Y', 'Z',
   'a', 'b', 'c', 'd', 'e', 'f', 'g', 'h', 'i', 'j', 'k', 'l', 'm',
   'n', 'o', 'p', 'q', 'r', 's', 't', 'u', 'v', 'w', 'x', 'y', 'z',
   '0', '1', '2', '3', '4', '5', '6', '7', '8', '9', '+', '/']

/-- Character for one six-bit group. -/
def b64Char (n : Nat) : Char := b64Alphabet.getD n ('A')

/-- Six-bit value of one base64 character, `none` for characters outside the
alphabet. -/
def b64Val (c : Char) : Option Nat := b64Alphabet.indexOf? c

/-- Standard base64 encoding of a byte list (bytes as `Nat < 256`), with `=`
padding; this is the `<data>` component the browser places after
`;base64,`. -/
def base64Encode : List Nat → List Char
  | [] => []
  | [a] => [b64Char (a / 4), b64Char (a % 4 * 16), '=', '=']
  | [a, b] => [b64Char (a / 4), b64Char (a % 4 * 16 + b / 16), b64Char (b % 16 * 4), '=']
  | a :: b :: c :: rest =>
    b64Char (a / 4) :: b64Char (a % 4 * 16 + b / 16)
      :: b64Char (b % 16 * 4 + c / 64) :: b64Char (c % 64) :: base64Encode rest

/-- Standard base64 decoding, inverse of `base64Encode`; `none` on malformed
input. -/
def base64Decode : List Char → Option (List Nat)
  | [] => some ([])
  | c1 :: c2 :: c3 :: c4 :: rest =>
    match b64Val c1, b64Val c2 with
    | some v1, some v2 =>
      if c3 = '=' then
        if c4 = '=' ∧ rest = [] then some ([v1 * 4 + v2 / 16]) else none
      else
        match b64Val c3 with
        | some v3 =>
          if c4 = '=' then
            if rest = [] then some ([v1 * 4 + v2 / 16, v2 % 16 * 16 + v3 / 4]) else none
          else
            match b64Val c4 with
            | some v4 =>
              (base64Decode rest).map
                (fun tl => (v1 * 4 + v2 / 16) :: (v2 % 16 * 16 + v3 / 4) :: (v3 % 4 * 64 + v4) :: tl)
            | none => none
        | none => none
    | _, _ => none
  | _ => none

/-- `s` contains `t` as a contiguous substring. -/
def ContainsSubstr (s t : String) : Prop :=
  ∃ a b, s.data = a ++ t.data ++ b

/-- Characters strictly before the first occurrence of `sep` (the whole list
when `sep` is absent): the first group of `splitOnChar sep`. -/
def takeUntil (sep : Char) : List Char → List Char
  | [] => []
  | c :: cs => if c = sep then [] else c :: takeUntil sep cs

/-- Characters strictly after the first occurrence of `sep` (empty when `sep`
is absent). -/
def dropPast (sep : Char) : List Char → List Char
  | [] => []
  | c :: cs => if c = sep then cs else dropPast sep cs

/-- Number of occurrences of `sep`. -/
def countChar (sep : Char) : List Char → Nat
  | [] => 0
  | c :: cs => (if c = sep then 1 else 0) + countChar sep cs

/-- The segment of a data URL strictly between its first and second commas:
what `fileToPart` returns as the `data` component when the URL has at least
two commas. -/
def betweenFirstTwoCommas (s : String) : List Char :=
  takeUntil ',' (dropPast ',' s.data)

/-! ## Concrete responses and inputs used for witnesses -/

/-- A response that is blocked AND carries an inline image part in its first
candidate. -/
def respBlockedWithImage : GenerateContentResponse :=
  ⟨some ⟨some ("SAFETY"), some ("conteúdo recusado")⟩,
   some [⟨some ⟨some [⟨none, some ⟨("image/png"), ("QUJD")⟩⟩]⟩, some ("STOP")⟩],
   none⟩

/-- Two distinct inline-data parts in one candidate. -/
def twoImageParts : List Part :=
  [⟨none, some ⟨("image/png"), ("QUJD")⟩⟩, ⟨none, some ⟨("image/jpeg"), ("WFla")⟩⟩]

/-- An unblocked response whose first candidate carries the two inline-data
parts of `twoImageParts`. -/
def respTwoImages : GenerateContentResponse :=
  ⟨none, some [⟨some ⟨some twoImageParts⟩, some ("STOP")⟩], none⟩

/-- An unblocked response with a text part before the inline-image part and an
abnormal finish reason. -/
def respImageAfterText : GenerateContentResponse :=
  ⟨none,
   some [⟨some ⟨some [⟨some ("antes"), none⟩, ⟨none, some ⟨("image/png"), ("QUJD")⟩⟩]⟩,
          some ("MAX_TOKENS")⟩],
   none⟩

/-- An unblocked response with no image part and an abnormal finish reason. -/
def respStopped : GenerateContentResponse :=
  ⟨none, some [⟨some ⟨some [⟨some ("texto"), none⟩]⟩, some ("SAFETY")⟩], none⟩

/-- An unblocked response with no image part, a normal finish reason, and
textual feedback surrounded by whitespace. -/
def respTextual : GenerateContentResponse :=
  ⟨none, some [⟨some ⟨some []⟩, some ("STOP")⟩], some ("  Não posso editar isso.  ")⟩

/-! ## Helper lemmas -/

theorem dataAppend (a b : String) : (a ++ b).data = a.data ++ b.data := by
  cases a
  cases b
  rfl

theorem strMk_data (s : String) : String.mk s.data = s := by
  cases s
  rfl

theorem data_ne_nil_of_ne_empty {s : String} (h : s ≠ "") : s.data ≠ [] := by
  intro hd
  apply h
  cases s
  simp at hd
  simp [hd]

theorem csSelf (t : String) : ContainsSubstr t t :=
  ⟨[], [], by simp⟩

theorem csAppL {t u : String} (s : String) (h : ContainsSubstr t u) :
    ContainsSubstr (s ++ t) u := by
  obtain ⟨a, b, hab⟩ := h
  exact ⟨s.data ++ a, b, by simp [dataAppend, hab]⟩

theorem csAppR {s u : String} (t : String) (h : ContainsSubstr s u) :
    ContainsSubstr (s ++ t) u := by
  obtain ⟨a, b, hab⟩ := h
  exact ⟨a, b ++ t.data, by simp [dataAppend, hab]⟩

theorem splitOnChar_ne_nil (sep : Char) (l : List Char) : splitOnChar sep l ≠ [] := by
  induction l with
  | nil => simp [splitOnChar]
  | cons a t ih =>
    by_cases ha : a = sep
    · simp [splitOnChar, ha]
    · simp only [splitOnChar, if_neg ha]
      cases hs : splitOnChar sep t with
      | nil => simp
      | cons g gs => simp

theorem splitOnChar_not_mem (sep : Char) (l : List Char) (h : sep ∉ l) :
    splitOnChar sep l = [l] := by
  induction l with
  | nil => rfl
  | cons a t ih =>
    have ha : ¬ a = sep := fun hq => h (by simp [hq])
    have ht : sep ∉ t := fun hm => h (List.mem_cons_of_mem a hm)
    simp only [splitOnChar, if_neg ha, ih ht]

theorem splitOnChar_append (sep : Char) (xs ys : List Char) (h : sep ∉ xs) :
    splitOnChar sep (xs ++ sep :: ys) = xs :: splitOnChar sep ys := by
  induction xs with
  | nil => simp [splitOnChar]
  | cons a t ih =>
    have ha : ¬ a = sep := fun hq => h (by simp [hq])
    have ht : sep ∉ t := fun hm => h (List.mem_cons_of_mem a hm)
    simp only [List.cons_append, splitOnChar, if_neg ha]
    rw [show t.append (sep :: ys) = t ++ sep :: ys from rfl, ih ht]

theorem takeUntil_not_mem (sep : Char) (l : List Char) : sep ∉ takeUntil sep l := by
  induction l with
  | nil => simp [takeUntil]
  | cons a t ih =>
    by_cases ha : a = sep
    · simp [takeUntil, ha]
    · simp only [takeUntil, if_neg ha]
      intro hm
      rcases List.mem_cons.mp hm with hq | hq
      · exact ha hq.symm
      · exact ih hq

theorem takeUntil_dropPast_decomp (sep : Char) (l : List Char) (h : sep ∈ l) :
    l = takeUntil sep l ++ sep :: dropPast sep l := by
  induction l with
  | nil => cases h
  | cons a t ih =>
    by_cases ha : a = sep
    · simp [takeUntil, dropPast, ha]
    · have ht : sep ∈ t := by
        rcases List.mem_cons.mp h with hq | hq
        · exact absurd hq.symm ha
        · exact hq
      simp only [takeUntil, dropPast, if_neg ha, List.cons_append]
      exact congrArg (a :: ·) (ih ht)

theorem mem_of_countChar_pos (sep : Char) (l : List Char) (h : 1 ≤ countChar sep l) :
    sep ∈ l := by
  induction l with
  | nil => simp [countChar] at h
  | cons a t ih =>
    by_cases ha : a = sep
    · simp [ha]
    · simp only [countChar, if_neg ha, Nat.zero_add] at h
      exact List.mem_cons_of_mem a (ih h)

theorem countChar_dropPast (sep : Char) (l : List Char) (h : sep ∈ l) :
    countChar sep (dropPast sep l) + 1 = countChar sep l := by
  induction l with
  | nil => cases h
  | cons a t ih =>
    by_cases ha : a = sep
    · simp [dropPast, countChar, ha, Nat.add_comm]
    · have ht : sep ∈ t := by
        rcases List.mem_cons.mp h with hq | hq
        · exact absurd hq.symm ha
        · exact hq
      simp only [dropPast, countChar, if_neg ha, Nat.zero_add]
      exact ih ht

theorem splitOnChar_of_mem (sep : Char) (l : List Char) (h : sep ∈ l) :
    splitOnChar sep l = takeUntil sep l :: splitOnChar sep (dropPast sep l) := by
  conv_lhs => rw [takeUntil_dropPast_decomp sep l h]
  exact splitOnChar_append sep _ _ (takeUntil_not_mem sep l)

theorem upToSemicolon_append (xs ys : List Char) (h : ';' ∉ xs) :
    upToSemicolon (xs ++ ';' :: ys) = some xs := by
  induction xs with
  | nil => simp [upToSemicolon]
  | cons a t ih =>
    have ha : ¬ a = ';' := fun hq => h (by simp [hq])
    have ht : (';' : Char) ∉ t := fun hm => h (List.mem_cons_of_mem a hm)
    simp only [List.cons_append, upToSemicolon, if_neg ha]
    rw [show t.append (';' :: ys) = t ++ ';' :: ys from rfl, ih ht, Option.map_some']

theorem mimeMatch_wellformed (m rest : List Char) (hm : ';' ∉ m) :
    mimeMatch ('d' :: 'a' :: 't' :: 'a' :: ':' :: (m ++ ';' :: rest)) = some m := by
  unfold mimeMatch
  have h1 : afterFirstColon ('d' :: 'a' :: 't' :: 'a' :: ':' :: (m ++ ';' :: rest))
      = some (m ++ ';' :: rest) := rfl
  rw [h1]
  exact upToSemicolon_append m rest hm

theorem fileToPart_eq_of_split (s : String) (a0 a1 : List Char)
    (rest : List (List Char)) (m : List Char)
    (hs : splitOnChar ',' s.data = a0 :: a1 :: rest)
    (hm : mimeMatch a0 = some m) (hm0 : m ≠ []) :
    fileToPart s = .ok ⟨String.mk m, String.mk a1⟩ := by
  unfold fileToPart
  rw [hs]
  simp only [hm, if_neg hm0]

theorem fileToPart_wellformed (mime d : String)
    (hm0 : mime ≠ "") (hm1 : ';' ∉ mime.data) (hmc : ',' ∉ mime.data)
    (hdc : ',' ∉ d.data) :
    fileToPart ("data:" ++ mime ++ ";base64," ++ d) = .ok ⟨mime, d⟩ := by
  have hxs : (',' : Char)
      ∉ 'd' :: 'a' :: 't' :: 'a' :: ':'
          :: (mime.data ++ ';' :: 'b' :: 'a' :: 's' :: 'e' :: '6' :: '4' :: []) := by
    intro hmem
    simp only [List.mem_cons] at hmem
    rcases hmem with h | h | h | h | h | hmem2
    · exact absurd h (by decide)
    · exact absurd h (by decide)
    · exact absurd h (by decide)
    · exact absurd h (by decide)
    · exact absurd h (by decide)
    · rcases List.mem_append.mp hmem2 with h | h
      · exact hmc h
      · exact absurd h (by decide)
  have hd2 : ("data:" ++ mime ++ ";base64," ++ d).data
      = ('d' :: 'a' :: 't' :: 'a' :: ':'
          :: (mime.data ++ ';' :: 'b' :: 'a' :: 's' :: 'e' :: '6' :: '4' :: []))
        ++ ',' :: d.data := by
    simp only [dataAppend, List.append_assoc, List.cons_append]
    rfl
  have hsplit : splitOnChar ',' ("data:" ++ mime ++ ";base64," ++ d).data
      = ('d' :: 'a' :: 't' :: 'a' :: ':'
          :: (mime.data ++ ';' :: 'b' :: 'a' :: 's' :: 'e' :: '6' :: '4' :: []))
        :: [d.data] := by
    rw [hd2, splitOnChar_append ',' _ _ hxs, splitOnChar_not_mem ',' _ hdc]
  have hmime := mimeMatch_wellformed mime.data ('b' :: 'a' :: 's' :: 'e' :: '6' :: '4' :: []) hm1
  have hres := fileToPart_eq_of_split _ _ _ _ _ hsplit hmime (data_ne_nil_of_ne_empty hm0)
  rw [strMk_data, strMk_data] at hres
  exact hres

theorem b64Val_b64Char : ∀ n < 64, b64Val (b64Char n) = some n := by decide

theorem b64Char_ne_pad : ∀ n < 64, b64Char n ≠ '=' := by decide

theorem b64Char_ne_comma (n : Nat) : b64Char n ≠ ',' := by
  by_cases h : n < 64
  · revert n
    decide
  · unfold b64Char
    rw [List.getD_eq_default]
    · decide
    · simp only [b64Alphabet, List.length]
      omega

theorem base64Encode_no_comma (l : List Nat) : ',' ∉ base64Encode l := by
  induction l using base64Encode.induct with
  | case1 => simp [base64Encode]
  | case2 a =>
    simp only [base64Encode, List.mem_cons, List.not_mem_nil, or_false]
    intro h
    rcases h with h | h | h
    · exact b64Char_ne_comma _ h.symm
    · exact b64Char_ne_comma _ h.symm
    · exact absurd h (by decide)
  | case3 a b =>
    simp only [base64Encode, List.mem_cons, List.not_mem_nil, or_false]
    intro h
    rcases h with h | h | h | h
    · exact b64Char_ne_comma _ h.symm
    · exact b64Char_ne_comma _ h.symm
    · exact b64Char_ne_comma _ h.symm
    · exact absurd h (by decide)
  | case4 a b c rest ih =>
    simp only [base64Encode, List.mem_cons]
    intro h
    rcases h with h | h | h | h | h
    · exact b64Char_ne_comma _ h.symm
    · exact b64Char_ne_comma _ h.symm
    · exact b64Char_ne_comma _ h.symm
    · exact b64Char_ne_comma _ h.symm
    · exact ih h

theorem base64_roundtrip (l : List Nat) (h : ∀ b ∈ l, b < 256) :
    base64Decode (base64Encode l) = some l := by
  induction l using base64Encode.induct with
  | case1 => rfl
  | case2 a =>
    have ha : a < 256 := h a (by simp)
    have h1 : a / 4 < 64 := by omega
    have h2 : a % 4 * 16 < 64 := by omega
    simp only [base64Encode, base64Decode, b64Val_b64Char _ h1, b64Val_b64Char _ h2]
    simp only [if_pos rfl, and_self, ite_true, Option.some.injEq, List.cons.injEq, and_true]
    omega
  | case3 a b =>
    have ha : a < 256 := h a (by simp)
    have hb : b < 256 := h b (by simp)
    have h1 : a / 4 < 64 := by omega
    have h2 : a % 4 * 16 + b / 16 < 64 := by omega
    have h3 : b % 16 * 4 < 64 := by omega
    have hne : b64Char (b % 16 * 4) ≠ '=' := b64Char_ne_pad _ h3
    simp only [base64Encode, base64Decode, b64Val_b64Char _ h1, b64Val_b64Char _ h2,
      b64Val_b64Char _ h3, if_neg hne, if_pos rfl, ite_true,
      Option.some.injEq, List.cons.injEq, and_true]
    omega
  | case4 a b c rest ih =>
    have ha : a < 256 := h a (by simp)
    have hb : b < 256 := h b (by simp)
    have hc : c < 256 := h c (by simp)
    have hrest : ∀ x ∈ rest, x < 256 := fun x hx => h x (by simp [hx])
    have h1 : a / 4 < 64 := by omega
    have h2 : a % 4 * 16 + b / 16 < 64 := by omega
    have h3 : b % 16 * 4 + c / 64 < 64 := by omega
    have h4 : c % 64 < 64 := by omega
    have hne3 : b64Char (b % 16 * 4 + c / 64) ≠ '=' := b64Char_ne_pad _ h3
    have hne4 : b64Char (c % 64) ≠ '=' := b64Char_ne_pad _ h4
    simp only [base64Encode, base64Decode, b64Val_b64Char _ h1, b64Val_b64Char _ h2,
      b64Val_b64Char _ h3, b64Val_b64Char _ h4, if_neg hne3, if_neg hne4,
      ih hrest, Option.map_some', Option.some.injEq, List.cons.injEq]
    refine ⟨by omega, by omega, by omega, trivial⟩

/-! ## Claim theorems -/

/-- C1: with an empty (JavaScript-falsy) API-key credential, each of the three
operations fails with `MissingCredentialError` for every file data URL — even
a malformed one whose encoding would fail — so the failure happens before the
image is encoded, and no request value is ever produced (no network call is
issued). -/
theorem missing_credential_fails_all_ops (fileDataUrl userPrompt filterReq adjustmentReq : String)
    (hx hy : Int) :
    generateEditedImage ("") fileDataUrl userPrompt hx hy
      = .error (.missingCredential ("An API Key must be set when running in a browser.")) ∧
    generateFilteredImage ("") fileDataUrl filterReq
      = .error (.missingCredential ("An API Key must be set when running in a browser.")) ∧
    generateAdjustedImage ("") fileDataUrl adjustmentReq
      = .error (.missingCredential ("An API Key must be set when running in a browser.")) :=
  ⟨rfl, rfl, rfl⟩

/-- C2: any response whose prompt feedback carries a (nonempty) block reason
makes the interpreter fail with `BlockedRequestError` carrying that reason and
the optional message, for every context tag and regardless of the rest of the
response — in particular an inline image part in a candidate is ignored. -/
theorem blocked_request_takes_priority (r : GenerateContentResponse) (c reason : String)
    (hr : r.promptFeedback.bind PromptFeedback.blockReason = some reason)
    (hne : reason ≠ "") :
    handleApiResponse r c = .error (.blockedRequest
      ("A solicitação foi bloqueada. Motivo: " ++ reason ++ ". "
        ++ (r.promptFeedback.bind PromptFeedback.blockReasonMessage).getD "")) := by
  unfold handleApiResponse
  rw [hr]
  simp [truthy, hne]

/-- Witness for C2 at a concrete blocked response that also contains an inline
image part. -/
theorem blocked_request_takes_priority_witness :
    handleApiResponse respBlockedWithImage ("edit") = .error (.blockedRequest
      ("A solicitação foi bloqueada. Motivo: " ++ "SAFETY" ++ ". "
        ++ (respBlockedWithImage.promptFeedback.bind PromptFeedback.blockReasonMessage).getD "")) :=
  blocked_request_takes_priority respBlockedWithImage ("edit") ("SAFETY") rfl (by decide)

/-- C3 counterexample: the claim, as stated, is false. `respTwoImages` has no
block reason and its first candidate CONTAINS a part with inline image data
`(image/jpeg, WFla)`, yet the interpreter returns the data URI of a different
part — the earlier `(image/png, QUJD)` one — because the source takes the
FIRST part carrying inline data, not an arbitrary one. -/
theorem image_part_claim_counterexample :
    ((respTwoImages.candidates.bind List.head?).bind Candidate.content).bind Content.parts
      = some twoImageParts ∧
    (∃ p ∈ twoImageParts, p.inlineData = some ⟨("image/jpeg"), ("WFla")⟩) ∧
    respTwoImages.promptFeedback = none ∧
    handleApiResponse respTwoImages ("edit") = .ok ("data:image/png;base64,QUJD") ∧
    handleApiResponse respTwoImages ("edit") ≠ .ok ("data:image/jpeg;base64,WFla") := by
  refine ⟨rfl, ⟨⟨none, some ⟨("image/jpeg"), ("WFla")⟩⟩, by decide, rfl⟩, rfl, rfl, ?_⟩
  intro h
  rw [show handleApiResponse respTwoImages ("edit") = .ok ("data:image/png;base64,QUJD") from rfl] at h
  exact absurd (Except.ok.inj h) (by decide)

/-- C3 (amended): for every response with no (truthy) block reason whose first
candidate's FIRST part carrying inline image data has `(mimeType m, data d)`,
the interpreter succeeds and returns exactly `"data:" ++ m ++ ";base64," ++ d`,
for every context tag and regardless of the candidate's finish reason. -/
theorem first_image_part_returned (r : GenerateContentResponse) (c m d : String)
    (hb : truthy (r.promptFeedback.bind PromptFeedback.blockReason) = false)
    (hi : responseImageData r = some ⟨m, d⟩) :
    handleApiResponse r c = .ok ("data:" ++ m ++ ";base64," ++ d) := by
  unfold handleApiResponse
  simp [hb, hi]

/-- Witness for the amended C3 at a concrete unblocked response whose image
part sits after a text part and whose finish reason is the abnormal
`MAX_TOKENS`. -/
theorem first_image_part_returned_witness :
    handleApiResponse respImageAfterText ("filter")
      = .ok ("data:" ++ "image/png" ++ ";base64," ++ "QUJD") :=
  first_image_part_returned respImageAfterText ("filter") ("image/png") ("QUJD") rfl rfl

/-- C4: with no (truthy) block reason, no inline image part in the first
candidate, and a present finish reason other than `STOP` (real finish-reason
codes are nonempty enum strings, hence the `reason ≠ ""` hypothesis), the
interpreter fails with `GenerationStoppedError` whose message carries that
exact finish reason as a substring. -/
theorem abnormal_finish_reports_reason (r : GenerateContentResponse) (c reason : String)
    (hb : truthy (r.promptFeedback.bind PromptFeedback.blockReason) = false)
    (hi : responseImageData r = none)
    (hf : (firstCandidate r).bind Candidate.finishReason = some reason)
    (hne : reason ≠ "") (hstop : reason ≠ "STOP") :
    handleApiResponse r c = .error (.generationStopped
      ("A geração de imagem para " ++ translatedContext c
        ++ " parou inesperadamente. Motivo: " ++ reason
        ++ ". Isso geralmente está relacionado às configurações de segurança.")) ∧
    ContainsSubstr
      ("A geração de imagem para " ++ translatedContext c
        ++ " parou inesperadamente. Motivo: " ++ reason
        ++ ". Isso geralmente está relacionado às configurações de segurança.")
      reason := by
  constructor
  · unfold handleApiResponse
    rw [hb]
    simp [hi, hf, truthy, hne, hstop]
  · exact csAppR _ (csAppL _ (csSelf reason))

/-- Witness for C4 at a concrete unblocked, imageless response whose finish
reason is `SAFETY`. -/
theorem abnormal_finish_reports_reason_witness :
    handleApiResponse respStopped ("adjustment") = .error (.generationStopped
      ("A geração de imagem para " ++ translatedContext ("adjustment")
        ++ " parou inesperadamente. Motivo: " ++ "SAFETY"
        ++ ". Isso geralmente está relacionado às configurações de segurança.")) ∧
    ContainsSubstr
      ("A geração de imagem para " ++ translatedContext ("adjustment")
        ++ " parou inesperadamente. Motivo: " ++ "SAFETY"
        ++ ". Isso geralmente está relacionado às configurações de segurança.")
      ("SAFETY") :=
  abnormal_finish_reports_reason respStopped ("adjustment") ("SAFETY")
    rfl rfl rfl (by decide) (by decide)

/-- C5: with no (truthy) block reason, no inline image part, and a finish
reason equal to `STOP` or absent, the interpreter fails with
`NoImageReturnedError`; when the aggregate text is present and nonempty after
trimming, the message contains that trimmed text verbatim, otherwise the
message is the generic explanation. -/
theorem no_image_reports_text (r : GenerateContentResponse) (c : String)
    (hb : truthy (r.promptFeedback.bind PromptFeedback.blockReason) = false)
    (hi : responseImageData r = none)
    (hf : (firstCandidate r).bind Candidate.finishReason = none
        ∨ (firstCandidate r).bind Candidate.finishReason = some ("STOP")) :
    (∀ t, r.text = some t → jsTrim t ≠ "" →
      handleApiResponse r c = .error (.noImageReturned
        ("O modelo de IA não retornou uma imagem para o(a) " ++ translatedContext c ++ ". "
          ++ ("O modelo respondeu com o texto: \"" ++ jsTrim t ++ "\""))) ∧
      ContainsSubstr
        ("O modelo de IA não retornou uma imagem para o(a) " ++ translatedContext c ++ ". "
          ++ ("O modelo respondeu com o texto: \"" ++ jsTrim t ++ "\""))
        (jsTrim t)) ∧
    ((r.text = none ∨ r.text.map jsTrim = some ("")) →
      handleApiResponse r c = .error (.noImageReturned
        ("O modelo de IA não retornou uma imagem para o(a) " ++ translatedContext c ++ ". "
          ++ "Isso pode acontecer devido a filtros de segurança ou se a solicitação for muito complexa. Tente reformular seu comando para ser mais direto."))) := by
  constructor
  · intro t ht htne
    constructor
    · unfold handleApiResponse
      rw [hb]
      rcases hf with hf | hf
      · simp [hi, hf, ht, truthy, htne]
      · simp [hi, hf, ht, truthy, htne]
    · exact csAppL _ (csAppR _ (csAppL _ (csSelf (jsTrim t))))
  · intro htext
    unfold handleApiResponse
    rw [hb]
    rcases hf with hf | hf <;> rcases htext with ht | ht
    · simp [hi, hf, ht, truthy]
    · simp [hi, hf, truthy, ht]
    · simp [hi, hf, ht, truthy]
    · simp [hi, hf, truthy, ht]

/-- Witness for C5 at a concrete unblocked, imageless, `STOP`-finished
response carrying whitespace-padded textual feedback. -/
theorem no_image_reports_text_witness :
    handleApiResponse respTextual ("edit") = .error (.noImageReturned
      ("O modelo de IA não retornou uma imagem para o(a) " ++ translatedContext ("edit") ++ ". "
        ++ ("O modelo respondeu com o texto: \"" ++ jsTrim ("  Não posso editar isso.  ") ++ "\""))) :=
  (((no_image_reports_text respTextual ("edit") rfl rfl (Or.inr rfl)).1
      ("  Não posso editar isso.  ") rfl (by decide)).1)

/-- C6: when the data URL produced by reading the file has no comma at all, or
the prefix before its first comma fails the MIME pattern `:(.*?);` (no match,
or an empty capture), `fileToPart` fails with a `DecodingError`, and none of
the three operations can produce a request — no network call is issued for any
API key or instruction. -/
theorem malformed_data_url_never_reaches_network (dataUrl : String)
    (h : (',' ∉ dataUrl.data)
        ∨ mimeMatch (takeUntil ',' dataUrl.data) = none
        ∨ mimeMatch (takeUntil ',' dataUrl.data) = some []) :
    (∃ msg, fileToPart dataUrl = .error msg) ∧
    (∀ apiKey userPrompt hx hy req,
        generateEditedImage apiKey dataUrl userPrompt hx hy ≠ .ok req) ∧
    (∀ apiKey filterReq req, generateFilteredImage apiKey dataUrl filterReq ≠ .ok req) ∧
    (∀ apiKey adjustmentReq req, generateAdjustedImage apiKey dataUrl adjustmentReq ≠ .ok req) := by
  have herr : ∃ msg, fileToPart dataUrl = .error msg := by
    by_cases hc : (',' : Char) ∈ dataUrl.data
    · rcases h with h | h | h
      · exact absurd hc h
      · cases hgs : splitOnChar ',' (dropPast ',' dataUrl.data) with
        | nil => exact absurd hgs (splitOnChar_ne_nil ',' _)
        | cons g gs =>
          refine ⟨("Não foi possível extrair o tipo MIME da URL de dados"), ?_⟩
          unfold fileToPart
          rw [splitOnChar_of_mem ',' _ hc, hgs]
          simp [h]
      · cases hgs : splitOnChar ',' (dropPast ',' dataUrl.data) with
        | nil => exact absurd hgs (splitOnChar_ne_nil ',' _)
        | cons g gs =>
          refine ⟨("Não foi possível extrair o tipo MIME da URL de dados"), ?_⟩
          unfold fileToPart
          rw [splitOnChar_of_mem ',' _ hc, hgs]
          simp [h]
    · refine ⟨("URL de dados inválida"), ?_⟩
      unfold fileToPart
      rw [splitOnChar_not_mem ',' _ hc]
  obtain ⟨msg, hmsg⟩ := herr
  refine ⟨⟨msg, hmsg⟩, ?_, ?_, ?_⟩
  · intro apiKey userPrompt hx hy req
    unfold generateEditedImage
    by_cases hk : apiKey = ""
    · simp [hk]
    · simp [hk, hmsg]
  · intro apiKey filterReq req
    unfold generateFilteredImage
    by_cases hk : apiKey = ""
    · simp [hk]
    · simp [hk, hmsg]
  · intro apiKey adjustmentReq req
    unfold generateAdjustedImage
    by_cases hk : apiKey = ""
    · simp [hk]
    · simp [hk, hmsg]

/-- Witness for C6 at a concrete comma-free data URL. -/
theorem malformed_data_url_never_reaches_network_witness :
    (∃ msg, fileToPart ("data-sem-virgula") = .error msg) ∧
    generateEditedImage ("chave") ("data-sem-virgula") ("instrução") 1 2
      ≠ .ok ⟨("gemini-2.5-flash-image-preview"), []⟩ := by
  have h := malformed_data_url_never_reaches_network ("data-sem-virgula") (Or.inl (by decide))
  exact ⟨h.1, h.2.1 ("chave") ("instrução") 1 2 _⟩

/-- C7: encoding round-trip. For a file with (well-formed) declared MIME type
`mime` and byte contents `bytes`, the browser read produces the data URL
`"data:" ++ mime ++ ";base64," ++ base64 bytes`; `fileToPart` extracts exactly
that MIME type and exactly that base64 data component, and base64-decoding the
extracted data component yields exactly the original bytes. -/
theorem encode_extract_roundtrip (mime : String) (bytes : List Nat)
    (hm0 : mime ≠ "") (hm1 : ';' ∉ mime.data) (hmc : ',' ∉ mime.data)
    (hb : ∀ b ∈ bytes, b < 256) :
    fileToPart ("data:" ++ mime ++ ";base64," ++ String.mk (base64Encode bytes))
      = .ok ⟨mime, String.mk (base64Encode bytes)⟩ ∧
    base64Decode (base64Encode bytes) = some bytes :=
  ⟨fileToPart_wellformed mime (String.mk (base64Encode bytes)) hm0 hm1 hmc
      (base64Encode_no_comma bytes),
   base64_roundtrip bytes hb⟩

/-- Witness for C7 at MIME type `image/png` and bytes `[77, 97, 110]`. -/
theorem encode_extract_roundtrip_witness :
    fileToPart ("data:" ++ "image/png" ++ ";base64," ++ String.mk (base64Encode [77, 97, 110]))
      = .ok ⟨"image/png", String.mk (base64Encode [77, 97, 110])⟩ ∧
    base64Decode (base64Encode [77, 97, 110]) = some [77, 97, 110] :=
  encode_extract_roundtrip ("image/png") [77, 97, 110]
    (by decide) (by decide) (by decide) (by decide)

/-- C8: the context tag only affects error wording, never the outcome: for
every response and every pair of context tags, the two interpreter runs have
the same outcome kind, and they succeed with the same value or both fail with
the same error kind. -/
theorem context_only_affects_wording (r : GenerateContentResponse) (c1 c2 : String) :
    kindOf (handleApiResponse r c1) = kindOf (handleApiResponse r c2) ∧
    (∀ s, handleApiResponse r c1 = .ok s ↔ handleApiResponse r c2 = .ok s) := by
  unfold handleApiResponse
  by_cases hb : truthy (r.promptFeedback.bind PromptFeedback.blockReason) = true
  · simp [hb, kindOf]
  · simp only [Bool.not_eq_true] at hb
    rw [hb]
    cases hi : responseImageData r with
    | some d => simp [kindOf]
    | none =>
      by_cases hf : truthy ((firstCandidate r).bind Candidate.finishReason) = true
          ∧ (firstCandidate r).bind Candidate.finishReason ≠ some ("STOP")
      · simp [hf, kindOf]
      · simp [hf, kindOf]

/-- C9: each operation's prompt text contains the user's instruction verbatim
as a substring, with no escaping or sanitization, and the Edit prompt
additionally contains the decimal renderings of both hotspot coordinates. -/
theorem prompts_contain_instruction_verbatim (u : String) (hx hy : Int) :
    ContainsSubstr (editPrompt u hx hy) u ∧
    ContainsSubstr (editPrompt u hx hy) (toString hx) ∧
    ContainsSubstr (editPrompt u hx hy) (toString hy) ∧
    ContainsSubstr (filterPrompt u) u ∧
    ContainsSubstr (adjustmentPrompt u) u := by
  refine ⟨?_, ?_, ?_, ?_, ?_⟩
  · exact csAppR _ (csAppR _ (csAppR _ (csAppR _ (csAppR _ (csAppL _ (csSelf u))))))
  · exact csAppR _ (csAppR _ (csAppR _ (csAppL _ (csSelf (toString hx)))))
  · exact csAppR _ (csAppL _ (csSelf (toString hy)))
  · exact csAppR _ (csAppL _ (csSelf u))
  · exact csAppR _ (csAppL _ (csSelf u))

/-- C10: a data URL with two or more commas does not fail the separator
check: provided the MIME pattern matches with a nonempty capture,
`fileToPart` succeeds and returns as the data component exactly the segment
strictly between the first and the second comma, discarding everything after
the second comma. -/
theorem extra_commas_keep_middle_segment (dataUrl : String) (m : List Char)
    (h2 : 2 ≤ countChar ',' dataUrl.data)
    (hm : mimeMatch (takeUntil ',' dataUrl.data) = some m)
    (hm0 : m ≠ []) :
    fileToPart dataUrl = .ok ⟨String.mk m, String.mk (betweenFirstTwoCommas dataUrl)⟩ := by
  have hmem1 : (',' : Char) ∈ dataUrl.data := mem_of_countChar_pos ',' _ (by omega)
  have hcount := countChar_dropPast ',' dataUrl.data hmem1
  have hmem2 : (',' : Char) ∈ dropPast ',' dataUrl.data :=
    mem_of_countChar_pos ',' _ (by omega)
  have hs : splitOnChar ',' dataUrl.data
      = takeUntil ',' dataUrl.data
        :: takeUntil ',' (dropPast ',' dataUrl.data)
        :: splitOnChar ',' (dropPast ',' (dropPast ',' dataUrl.data)) := by
    rw [splitOnChar_of_mem ',' _ hmem1, splitOnChar_of_mem ',' _ hmem2]
  exact fileToPart_eq_of_split _ _ _ _ _ hs hm hm0

/-- Witness for C10 at a concrete data URL with two commas: everything after
the second comma is discarded. -/
theorem extra_commas_keep_middle_segment_witness :
    fileToPart ("data:image/png;base64,QUJD,descartado")
      = .ok ⟨String.mk (("image/png").data),
             String.mk (betweenFirstTwoCommas ("data:image/png;base64,QUJD,descartado"))⟩ :=
  extra_commas_keep_middle_segment ("data:image/png;base64,QUJD,descartado")
    (("image/png").data) (by decide) (by decide) (by decide)

end PixShop
